import Mathlib

/-!
# AirCanvas: verification of the gesture-drawing pipeline

Shallow embedding of the AirCanvas application: the coordinate mapper
(`handtracker.py`), the main-loop drawing logic (`main.py`), the canvas
and compositor (`canvas.py`) and the controls (`controls.py`).

Modelling conventions:
* pixel coordinates are `Int`; image dimensions are `Nat`;
* Python `a // b` on nonnegative ints is `Nat` division; `int(a * b / c)`
  on nonnegative ints (float true division followed by truncation toward
  zero) is floor division, written with `/` on `Int` — inside the guards
  of the functions below every numerator and denominator is nonnegative,
  where the two conventions agree;
* OpenCV / numpy image primitives (resize, grayscale conversion,
  threshold, masking, saturating add) are external collaborators: they
  are modelled pointwise from their documented semantics, and where a
  claim does not depend on their pixel arithmetic (resampling, the HSV
  to BGR conversion) they are taken as parameters of the embedding.
-/

namespace AirCanvas

/-- A pixel point `(x, y)`. -/
abbrev Pt := Int × Int

/-! ## Crop geometry

`handtracker.py` lines 147-157 (the identical arithmetic appears inline in
`main.py` lines 269-278 and 312-317): a centered square crop of the camera
frame, then a centered 3:4 portrait sub-window of that square. -/

/-- `crop_size = min(camera_width, camera_height)` (handtracker.py line 150). -/
def crop_size (w h : Nat) : Nat := min w h

/-- `crop_start_x = (camera_width - crop_size) // 2` (handtracker.py line 151). -/
def crop_start_x (w h : Nat) : Nat := (w - crop_size w h) / 2

/-- `crop_start_y = (camera_height - crop_size) // 2` (handtracker.py line 152). -/
def crop_start_y (w h : Nat) : Nat := (h - crop_size w h) / 2

/-- `portrait_width = int(crop_size * 3 / 4)` (handtracker.py line 156). -/
def portrait_width (w h : Nat) : Nat := crop_size w h * 3 / 4

/-- `portrait_start_x = (crop_size - portrait_width) // 2` (handtracker.py line 157). -/
def portrait_start_x (w h : Nat) : Nat := (crop_size w h - portrait_width w h) / 2

/-- The square-crop containment check of handtracker.py lines 160-161. -/
def in_square_crop (w h : Nat) (p : Pt) : Prop :=
  (crop_start_x w h : Int) ≤ p.1 ∧ p.1 ≤ (crop_start_x w h : Int) + (crop_size w h : Int) ∧
  (crop_start_y w h : Int) ≤ p.2 ∧ p.2 ≤ (crop_start_y w h : Int) + (crop_size w h : Int)

instance (w h : Nat) (p : Pt) : Decidable (in_square_crop w h p) := by
  unfold in_square_crop; infer_instance

/-- The portrait sub-window containment check of handtracker.py line 168,
on the crop-relative x coordinate. -/
def in_portrait_window (w h : Nat) (p : Pt) : Prop :=
  (portrait_start_x w h : Int) ≤ p.1 - (crop_start_x w h : Int) ∧
  p.1 - (crop_start_x w h : Int) ≤ (portrait_start_x w h : Int) + (portrait_width w h : Int)

instance (w h : Nat) (p : Pt) : Decidable (in_portrait_window w h p) := by
  unfold in_portrait_window; infer_instance

/-- The portrait-relative coordinates of a camera-frame point
(handtracker.py lines 164-171). -/
def portrait_rel (w h : Nat) (p : Pt) : Pt :=
  (p.1 - (crop_start_x w h : Int) - (portrait_start_x w h : Int),
   p.2 - (crop_start_y w h : Int))

/-- The panel scaling of handtracker.py lines 175-176:
`int(portrait_x * panel_width / cropped_frame.shape[1])` and the analogous
y computation. -/
def panel_scaled (w h cw ch pw ph : Nat) (p : Pt) : Pt :=
  ((portrait_rel w h p).1 * (pw : Int) / (cw : Int),
   (portrait_rel w h p).2 * (ph : Int) / (ch : Int))

/-- `map_to_panel_coordinates` (handtracker.py lines 119-181).
`cw`/`ch` are `cropped_frame.shape[1]`/`cropped_frame.shape[0]`. -/
def map_to_panel_coordinates (finger_point : Option Pt)
    (camera_width camera_height cw ch panel_width panel_height : Nat) : Option Pt :=
  match finger_point with
  | none => none
  | some fp =>
    let cs : Nat := min camera_width camera_height
    let csx : Nat := (camera_width - cs) / 2
    let csy : Nat := (camera_height - cs) / 2
    let pow : Nat := cs * 3 / 4
    let psx : Nat := (cs - pow) / 2
    if (csx : Int) ≤ fp.1 ∧ fp.1 ≤ (csx : Int) + (cs : Int) ∧
       (csy : Int) ≤ fp.2 ∧ fp.2 ≤ (csy : Int) + (cs : Int) then
      let cx : Int := fp.1 - (csx : Int)
      let cy : Int := fp.2 - (csy : Int)
      if (psx : Int) ≤ cx ∧ cx ≤ (psx : Int) + (pow : Int) then
        let px : Int := cx - (psx : Int)
        let py : Int := cy
        some (px * (panel_width : Int) / (cw : Int),
              py * (panel_height : Int) / (ch : Int))
      else none
    else none

/-- The inline finger-to-drawing-area mapping of the main loop
(main.py lines 267-306), producing `drawing_point`. `cvw`/`cvh` are
`cropped_camera_view.shape[1]`/`cropped_camera_view.shape[0]`. -/
def main_loop_drawing_point (index_finger_point : Option Pt)
    (camera_width camera_height cvw cvh drawing_area_width drawing_area_height : Nat) :
    Option Pt :=
  match index_finger_point with
  | none => none
  | some fp =>
    let cs : Nat := min camera_width camera_height
    let csx : Nat := (camera_width - cs) / 2
    let csy : Nat := (camera_height - cs) / 2
    let pow : Nat := cs * 3 / 4
    let psx : Nat := (cs - pow) / 2
    if (csx : Int) ≤ fp.1 ∧ fp.1 ≤ (csx : Int) + (cs : Int) ∧
       (csy : Int) ≤ fp.2 ∧ fp.2 ≤ (csy : Int) + (cs : Int) then
      let cx : Int := fp.1 - (csx : Int)
      let cy : Int := fp.2 - (csy : Int)
      if (psx : Int) ≤ cx ∧ cx ≤ (psx : Int) + (pow : Int) then
        let px : Int := cx - (psx : Int)
        let py : Int := cy
        some (px * (drawing_area_width : Int) / (cvw : Int),
              py * (drawing_area_height : Int) / (cvh : Int))
      else none
    else none

/-- The inverse scaling of the pinch-line visualization (main.py lines
334-335): `int(drawing_x * cropped_camera_view.shape[1] / drawing_area_width)`
and the analogous y computation. -/
def inverse_scale (q : Pt) (cw ch pw ph : Nat) : Pt :=
  (q.1 * (cw : Int) / (pw : Int), q.2 * (ch : Int) / (ph : Int))

/-- `map_to_panel_coordinates` as a single guarded expression (shared
helper behind the C2 theorem). -/
lemma map_eq_ite (w h cw ch pw ph : Nat) (p : Pt) :
    map_to_panel_coordinates (some p) w h cw ch pw ph =
      if in_square_crop w h p ∧ in_portrait_window w h p then
        some (panel_scaled w h cw ch pw ph p)
      else none := by
  simp only [map_to_panel_coordinates, in_square_crop, in_portrait_window, panel_scaled,
    portrait_rel, crop_size, crop_start_x, crop_start_y, portrait_width, portrait_start_x]
  split_ifs with h1 h2 h3 <;> first
  | rfl
  | (exfalso; tauto)

/-- Whatever `map_to_panel_coordinates` accepts lies in both crop regions,
and the output is the scaled portrait-relative point. -/
lemma map_some_elim {w h cw ch pw ph : Nat} {p q : Pt}
    (hm : map_to_panel_coordinates (some p) w h cw ch pw ph = some q) :
    in_square_crop w h p ∧ in_portrait_window w h p ∧
      q = panel_scaled w h cw ch pw ph p := by
  rw [map_eq_ite] at hm
  by_cases hc : in_square_crop w h p ∧ in_portrait_window w h p
  · rw [if_pos hc] at hm
    exact ⟨hc.1, hc.2, ((Option.some.injEq _ _).mp hm).symm⟩
  · rw [if_neg hc] at hm
    exact absurd hm (by simp)

/-- C2: `map_to_panel_coordinates` returns `none` for every finger point
outside the centered square crop, or whose crop-relative x is outside the
centered 3:4 portrait sub-window, and `some` panel point for every point
inside both regions. -/
theorem map_to_panel_in_bounds_iff (w h cw ch pw ph : Nat) (p : Pt) :
    map_to_panel_coordinates (some p) w h cw ch pw ph =
      if in_square_crop w h p ∧ in_portrait_window w h p then
        some (panel_scaled w h cw ch pw ph p)
      else none :=
  map_eq_ite w h cw ch pw ph p

/-- C4: the inline finger-to-drawing-area mapping of the main loop computes
exactly the same `Option` result as `map_to_panel_coordinates` on the same
point, frame, cropped frame and drawing-area dimensions. -/
theorem main_loop_matches_map_to_panel
    (finger : Option Pt) (w h cvw cvh dw dh : Nat) :
    main_loop_drawing_point finger w h cvw cvh dw dh =
      map_to_panel_coordinates finger w h cvw cvh dw dh := rfl

/-! ## Scaling bounds and the round-trip law -/

/-- Scaling a coordinate `a ∈ [0, c]` by `p / c` with floor division lands
in `[0, p]`. -/
lemma scale_bounds (a : Int) (c p : Nat) (h0 : 0 ≤ a) (hac : a ≤ (c : Int)) :
    0 ≤ a * p / c ∧ a * p / c ≤ (p : Int) := by
  refine ⟨Int.ediv_nonneg (mul_nonneg h0 (by positivity)) (by positivity), ?_⟩
  rcases Nat.eq_zero_or_pos c with hc | hc
  · subst hc
    simp only [Nat.cast_zero, Int.ediv_zero]
    positivity
  · have hcI : (0 : Int) < c := by exact_mod_cast hc
    calc a * p / c ≤ (c : Int) * p / c :=
          Int.ediv_le_ediv hcI (mul_le_mul_of_nonneg_right hac (by positivity))
      _ = p := Int.mul_ediv_cancel_left _ hcI.ne'

/-- Floor-scaling `a ≥ 0` up by `p / c` (with `0 < c ≤ p`) and back down by
`c / p` loses at most one: the result lies in `[a - 1, a]`. -/
lemma ediv_roundtrip (a : Int) (c p : Nat) (_h0 : 0 ≤ a) (hc : 0 < c) (hcp : c ≤ p) :
    a - 1 ≤ a * p / c * c / p ∧ a * p / c * c / p ≤ a := by
  have hcI : (0 : Int) < c := by exact_mod_cast hc
  have hpI : (0 : Int) < p := by exact_mod_cast lt_of_lt_of_le hc hcp
  have hcpI : (c : Int) ≤ p := by exact_mod_cast hcp
  constructor
  · rw [Int.le_ediv_iff_mul_le hpI]
    have h1 : a * p < (a * p / c + 1) * c := Int.lt_ediv_add_one_mul_self _ hcI
    nlinarith [h1, hcpI]
  · have h2 : a * p / c * c ≤ a * p := Int.ediv_mul_le _ hcI.ne'
    have h3 := Int.ediv_le_ediv hpI h2
    rwa [Int.mul_ediv_cancel _ hpI.ne'] at h3

/-- C10: every `some (x, y)` that `map_to_panel_coordinates` returns (called,
as the application does, with the cropped frame produced from the same
camera frame, so the cropped dimensions are `portrait_width` and `crop_size`)
satisfies `0 ≤ x ≤ panel_width` and `0 ≤ y ≤ panel_height`; and both upper
bounds are attained, e.g. a 1920x1080 frame with finger point (1365, 1080)
maps exactly to `(panel_width, panel_height) = (800, 1000)`. -/
theorem map_output_bounds :
    (∀ (w h pw ph : Nat) (p : Pt) (x y : Int),
        map_to_panel_coordinates (some p) w h (portrait_width w h) (crop_size w h) pw ph
          = some (x, y) →
        0 ≤ x ∧ x ≤ (pw : Int) ∧ 0 ≤ y ∧ y ≤ (ph : Int)) ∧
    map_to_panel_coordinates (some (1365, 1080)) 1920 1080
      (portrait_width 1920 1080) (crop_size 1920 1080) 800 1000 = some (800, 1000) := by
  constructor
  · intro w h pw ph p x y hm
    obtain ⟨hsq, hpo, hq⟩ := map_some_elim hm
    have hx : x = (portrait_rel w h p).1 * pw / (portrait_width w h) := by
      have := congrArg Prod.fst hq; simpa [panel_scaled] using this
    have hy : y = (portrait_rel w h p).2 * ph / (crop_size w h) := by
      have := congrArg Prod.snd hq; simpa [panel_scaled] using this
    rw [in_square_crop] at hsq
    rw [in_portrait_window] at hpo
    have hx0 : 0 ≤ (portrait_rel w h p).1 := by
      simp only [portrait_rel]; omega
    have hxc : (portrait_rel w h p).1 ≤ (portrait_width w h : Int) := by
      simp only [portrait_rel]; omega
    have hy0 : 0 ≤ (portrait_rel w h p).2 := by
      simp only [portrait_rel]; omega
    have hyc : (portrait_rel w h p).2 ≤ (crop_size w h : Int) := by
      simp only [portrait_rel]; omega
    have bx := scale_bounds (portrait_rel w h p).1 (portrait_width w h) pw hx0 hxc
    have by' := scale_bounds (portrait_rel w h p).2 (crop_size w h) ph hy0 hyc
    subst hx; subst hy
    exact ⟨bx.1, bx.2, by'.1, by'.2⟩
  · decide

/-- C3 counterexample: with a 1920x1080 camera frame (cropped frame
810x1080) and the 800x1000 drawing panel, the point (655, 14) — whose
portrait-relative coordinate (100, 14) is strictly inside the portrait crop
window — maps to panel point (98, 12), and the inverse scaling recovers
portrait y 12, two pixels away from the original 14. -/
theorem map_roundtrip_two_pixel_cex :
    (0 : Int) < (portrait_rel 1920 1080 (655, 14)).1 ∧
    (portrait_rel 1920 1080 (655, 14)).1 < (portrait_width 1920 1080 : Int) ∧
    (0 : Int) < (portrait_rel 1920 1080 (655, 14)).2 ∧
    (portrait_rel 1920 1080 (655, 14)).2 < (crop_size 1920 1080 : Int) ∧
    map_to_panel_coordinates (some (655, 14)) 1920 1080
      (portrait_width 1920 1080) (crop_size 1920 1080) 800 1000 = some (98, 12) ∧
    ¬ |(portrait_rel 1920 1080 (655, 14)).2 -
        (inverse_scale (98, 12) (portrait_width 1920 1080) (crop_size 1920 1080)
          800 1000).2| ≤ 1 := by
  decide

/-- C3 (amended): whenever the cropped dimensions are positive and do not
exceed the panel dimensions (the drawing panel upscales the cropped view),
every point that `map_to_panel_coordinates` accepts round-trips through the
inverse scaling to within one pixel of its portrait-relative coordinate in
each axis. -/
theorem map_roundtrip_within_one_pixel
    (w h cw ch pw ph : Nat) (p : Pt) (x y : Int)
    (hcw : 0 < cw) (hcwp : cw ≤ pw) (hch : 0 < ch) (hchp : ch ≤ ph)
    (hm : map_to_panel_coordinates (some p) w h cw ch pw ph = some (x, y)) :
    |(portrait_rel w h p).1 - (inverse_scale (x, y) cw ch pw ph).1| ≤ 1 ∧
    |(portrait_rel w h p).2 - (inverse_scale (x, y) cw ch pw ph).2| ≤ 1 := by
  obtain ⟨hsq, hpo, hq⟩ := map_some_elim hm
  have hx : x = (portrait_rel w h p).1 * pw / cw := by
    have := congrArg Prod.fst hq; simpa [panel_scaled] using this
  have hy : y = (portrait_rel w h p).2 * ph / ch := by
    have := congrArg Prod.snd hq; simpa [panel_scaled] using this
  rw [in_square_crop] at hsq
  rw [in_portrait_window] at hpo
  have hx0 : 0 ≤ (portrait_rel w h p).1 := by
    simp only [portrait_rel]; omega
  have hy0 : 0 ≤ (portrait_rel w h p).2 := by
    simp only [portrait_rel]; omega
  have rx := ediv_roundtrip (portrait_rel w h p).1 cw pw hx0 hcw hcwp
  have ry := ediv_roundtrip (portrait_rel w h p).2 ch ph hy0 hch hchp
  subst hx; subst hy
  simp only [inverse_scale]
  constructor
  · exact abs_le.mpr ⟨by linarith [rx.2], by linarith [rx.1]⟩
  · exact abs_le.mpr ⟨by linarith [ry.2], by linarith [ry.1]⟩

/-- Witness for C3 (amended) at a 640x480 camera frame (cropped 360x480),
the 800x1000 drawing panel and finger point (200, 100): portrait-relative
point (60, 100) maps to (133, 208) and round-trips to (59, 99), within one
pixel in each axis. -/
theorem map_roundtrip_within_one_pixel_witness :
    |(portrait_rel 640 480 (200, 100)).1 -
       (inverse_scale ((133 : Int), (208 : Int)) 360 480 800 1000).1| ≤ 1 ∧
    |(portrait_rel 640 480 (200, 100)).2 -
       (inverse_scale ((133 : Int), (208 : Int)) 360 480 800 1000).2| ≤ 1 :=
  map_roundtrip_within_one_pixel 640 480 360 480 800 1000 (200, 100) 133 208
    (by decide) (by decide) (by decide) (by decide) (by decide)

/-! ## The drawing state machine

main.py lines 365-379: each frame, when pinching with a valid mapped
drawing point, draws a line from `last_drawing_point` (when set) to the
new point on the drawing canvas via `draw_line` (canvas.py lines 60-76),
then remembers the new point; otherwise `last_drawing_point` is reset to
`None`. The canvas mutation is abstracted as the trace of `draw_line`
calls (each one start point, end point, color, thickness). -/

/-- A BGR color. -/
abbrev Color := Nat × Nat × Nat

/-- One `draw_line(drawing_canvas, start, end, color, thickness)` call
(canvas.py lines 60-76, issued from main.py lines 372 and 375). -/
structure DrawCall where
  start : Pt
  stop : Pt
  color : Color
  thickness : Nat
  deriving DecidableEq, Repr

/-- One frame of the drawing logic (main.py lines 365-379): the new
`last_drawing_point` and the `draw_line` calls the frame performs. -/
def drawing_step (is_erasing canvas_is_white : Bool) (current_drawing_color : Color)
    (line_thickness : Nat) (last_drawing_point : Option Pt)
    (is_pinching : Bool) (drawing_point : Option Pt) :
    Option Pt × List DrawCall :=
  match is_pinching, drawing_point with
  | true, some p =>
    match last_drawing_point with
    | some q =>
      let eraser_color : Color := if canvas_is_white then (255, 255, 255) else (0, 0, 0)
      let c : Color := if is_erasing then eraser_color else current_drawing_color
      (some p, [⟨q, p, c, line_thickness⟩])
    | none => (some p, [])
  | _, _ => (none, [])

/-- The drawing logic over consecutive frames, each frame a pair
`(is_pinching, drawing_point)`; returns the final `last_drawing_point` and
the concatenated `draw_line` trace. -/
def drawing_run (is_erasing canvas_is_white : Bool) (current_drawing_color : Color)
    (line_thickness : Nat) :
    Option Pt → List (Bool × Option Pt) → Option Pt × List DrawCall
  | last, [] => (last, [])
  | last, f :: fs =>
    let s := drawing_step is_erasing canvas_is_white current_drawing_color
      line_thickness last f.1 f.2
    let r := drawing_run is_erasing canvas_is_white current_drawing_color
      line_thickness s.1 fs
    (r.1, s.2 ++ r.2)

/-- The color a non-eraser `draw_line` call uses, an eraser one otherwise
(main.py lines 369-375). -/
def frame_color (is_erasing canvas_is_white : Bool) (current_drawing_color : Color) :
    Color :=
  if is_erasing then (if canvas_is_white then (255, 255, 255) else (0, 0, 0))
  else current_drawing_color

/-- A valid frame: pinch active and a mapped drawing point. -/
def valid_frame (p : Pt) : Bool × Option Pt := (true, some p)

/-- Helper for C1: running from a remembered point `q` over valid frames
`ps` draws one segment per frame, chaining `q :: ps`. -/
lemma drawing_run_from_some (e w : Bool) (c : Color) (t : Nat) (ps : List Pt) (q : Pt) :
    drawing_run e w c t (some q) (ps.map valid_frame) =
      (some (ps.getLastD q),
       ((q :: ps).zip ps).map fun s => ⟨s.1, s.2, frame_color e w c, t⟩) := by
  induction ps generalizing q with
  | nil => rfl
  | cons p ps ih =>
    simp only [List.map_cons, drawing_run, drawing_step, valid_frame, ih p,
      List.getLastD_cons, List.zip_cons_cons, List.map_cons, List.singleton_append,
      frame_color]

/-- C1: (a) a run of `N ≥ 1` consecutive frames with pinch active and a
valid mapped point, started with no remembered point, performs exactly
`N - 1` `draw_line` calls, the k-th joining the k-th point to the (k+1)-th
(the trace is the zip of the point list with its tail), and ends remembering
the last point; (b) any single frame with pinch inactive or no mapped point
resets `last_drawing_point` to `None` and draws nothing; (c) hence after
such a frame, a valid frame draws zero segments and the next valid frame
draws exactly one, joining the two points. -/
theorem drawing_state_machine_trace (e w : Bool) (c : Color) (t : Nat)
    (ps : List Pt) (hps : ps ≠ [])
    (last : Option Pt) (pinch : Bool) (pt : Option Pt)
    (hinvalid : pinch = false ∨ pt = none) (p1 p2 : Pt) :
    drawing_run e w c t none (ps.map valid_frame) =
      (some (ps.getLast hps),
       (ps.zip ps.tail).map fun s => ⟨s.1, s.2, frame_color e w c, t⟩) ∧
    drawing_step e w c t last pinch pt = (none, []) ∧
    drawing_run e w c t last [(pinch, pt), valid_frame p1, valid_frame p2] =
      (some p2, [⟨p1, p2, frame_color e w c, t⟩]) := by
  have hstep : drawing_step e w c t last pinch pt = (none, []) := by
    rcases hinvalid with h | h
    · subst h; cases pt <;> rfl
    · subst h; cases pinch <;> rfl
  refine ⟨?_, hstep, ?_⟩
  · cases ps with
    | nil => exact absurd rfl hps
    | cons p ps' =>
      show drawing_run e w c t none (valid_frame p :: ps'.map valid_frame) = _
      simp only [drawing_run, drawing_step, valid_frame, drawing_run_from_some,
        List.nil_append, List.tail_cons, List.getLast_eq_getLastD]
  · show drawing_run e w c t last ((pinch, pt) :: [valid_frame p1, valid_frame p2]) = _
    simp only [drawing_run, hstep, List.nil_append]
    rfl

/-- Witness for C1: three valid pinch frames through (1,2), (3,4), (5,6)
draw exactly two segments joining consecutive points; a non-pinching frame
resets the remembered point; and after it, drawing resumes with zero then
one segment. -/
theorem drawing_state_machine_trace_witness :
    drawing_run false true (0, 0, 255) 5 none
        (([((1 : Int), (2 : Int)), (3, 4), (5, 6)] : List Pt).map valid_frame) =
      (some (([((1 : Int), (2 : Int)), (3, 4), (5, 6)] : List Pt).getLast (by decide)),
       ((([((1 : Int), (2 : Int)), (3, 4), (5, 6)] : List Pt).zip
          ([((1 : Int), (2 : Int)), (3, 4), (5, 6)] : List Pt).tail).map
            fun s => ⟨s.1, s.2, frame_color false true (0, 0, 255), 5⟩)) ∧
    drawing_step false true (0, 0, 255) 5 (some (9, 9)) false (some (1, 1)) =
      (none, []) ∧
    drawing_run false true (0, 0, 255) 5 (some (9, 9))
        [(false, some (1, 1)), valid_frame (1, 2), valid_frame (3, 4)] =
      (some (3, 4), [⟨(1, 2), (3, 4), frame_color false true (0, 0, 255), 5⟩]) :=
  drawing_state_machine_trace false true (0, 0, 255) 5
    [((1 : Int), (2 : Int)), (3, 4), (5, 6)] (by decide)
    (some (9, 9)) false (some (1, 1)) (Or.inl rfl) (1, 2) (3, 4)

/-! ## Color wheel memoization (controls.py lines 110-231)

`draw_color_wheel` regenerates the wheel image only when the module-level
cache `_color_wheel_cache` is `None` or its side length differs from
`radius * 2`; otherwise it reuses the cached image unchanged. The
per-pixel angle/saturation/HSV-to-BGR computation (controls.py lines
146-163) is floating-point trigonometry performed by `math.atan2`,
`math.sqrt` and `cv2.cvtColor`; the memoization claim does not depend on
its values, so it is a parameter `hsv_pixel` of the embedding. -/

/-- The color-wheel image: a square pixel grid of side `size`
(`wheel_image.shape[0]`, created as `radius * 2`). -/
structure WheelImage where
  size : Nat
  px : Nat → Nat → Color

/-- The wheel generation loop of controls.py lines 132-166: a fresh
`radius * 2` square, zero-initialized, whose pixels with
`distance <= radius` (exact on squared integer distances) get the
HSV-derived color `hsv_pixel radius y x`. -/
def generate_wheel (hsv_pixel : Nat → Nat → Nat → Color) (radius : Nat) : WheelImage :=
  { size := radius * 2
    px := fun y x =>
      if ((x : Int) - radius) ^ 2 + ((y : Int) - radius) ^ 2 ≤ (radius : Int) ^ 2 then
        hsv_pixel radius y x
      else (0, 0, 0) }

/-- The cache check and update of `draw_color_wheel` (controls.py lines
127-172): regenerate iff `_color_wheel_cache is None or
_color_wheel_cache.shape[0] != radius * 2`. Returns the wheel image used
for this render, the cache afterwards, and whether the per-pixel
generation loop ran. -/
def draw_color_wheel (hsv_pixel : Nat → Nat → Nat → Color)
    (cache : Option WheelImage) (radius : Nat) :
    WheelImage × Option WheelImage × Bool :=
  match cache with
  | none =>
    let wheel := generate_wheel hsv_pixel radius
    (wheel, some wheel, true)
  | some wheel =>
    if wheel.size ≠ radius * 2 then
      let fresh := generate_wheel hsv_pixel radius
      (fresh, some fresh, true)
    else (wheel, some wheel, false)

/-- C5: the color wheel is memoized by radius. The generation loop runs
exactly when no image is cached or the cached image's side differs from
`radius * 2` — never merely because the render is called again; and a
second call with the same radius reuses the image of the first call
unchanged (pixel-identical) without running the generation loop. -/
theorem color_wheel_cache_memoizes (hsv_pixel : Nat → Nat → Nat → Color)
    (cache : Option WheelImage) (radius : Nat) :
    ((draw_color_wheel hsv_pixel cache radius).2.2 = true ↔
      cache = none ∨ ∃ w, cache = some w ∧ w.size ≠ radius * 2) ∧
    (draw_color_wheel hsv_pixel
        (draw_color_wheel hsv_pixel cache radius).2.1 radius).1 =
      (draw_color_wheel hsv_pixel cache radius).1 ∧
    (draw_color_wheel hsv_pixel
        (draw_color_wheel hsv_pixel cache radius).2.1 radius).2.2 = false := by
  match cache with
  | none =>
    refine ⟨by simp [draw_color_wheel], ?_, ?_⟩ <;>
      simp [draw_color_wheel, generate_wheel]
  | some w =>
    by_cases hs : w.size = radius * 2
    · refine ⟨?_, ?_, ?_⟩ <;> simp [draw_color_wheel, hs]
    · refine ⟨?_, ?_, ?_⟩ <;> simp [draw_color_wheel, hs, generate_wheel]

/-! ## The thickness slider (controls.py lines 343-383)

`check_slider_interaction` iterates the slider dictionary; the application
registers the single entry `'thickness'` (controls.py lines 339-341), with
rectangle `(x1, y1, x2, y2)`. Python's float true division is modelled in
`ℚ`; `int(...)` of the nonnegative in-guard value is the floor. -/

/-- `check_slider_interaction` (controls.py lines 343-383) on the single
`'thickness'` slider rectangle. `_relative_y` mirrors the computation of
line 373, performed whenever the finger is inside the rectangle and unused
for the thickness slider. -/
def check_slider_interaction (finger_point : Option Pt)
    (thickness_rect : Int × Int × Int × Int)
    (current_values : Int × Int × Int × Int) : Int × Int × Int × Int :=
  match finger_point with
  | none => current_values
  | some f =>
    let x1 := thickness_rect.1
    let y1 := thickness_rect.2.1
    let x2 := thickness_rect.2.2.1
    let y2 := thickness_rect.2.2.2
    if x1 ≤ f.1 ∧ f.1 ≤ x2 ∧ y1 ≤ f.2 ∧ f.2 ≤ y2 then
      let _relative_y : ℚ := ((f.2 - y1 : Int) : ℚ) / ((y2 - y1 : Int) : ℚ)
      let relative_x : ℚ := ((f.1 - x1 : Int) : ℚ) / ((x2 - x1 : Int) : ℚ)
      (current_values.1, current_values.2.1, current_values.2.2.1,
       ⌊(1 : ℚ) + 19 * relative_x⌋)
    else current_values

/-- C9: `check_slider_interaction` never changes red, green or blue; when
the finger is absent or outside the thickness slider rectangle it returns
all four values unchanged; and when the finger is inside the rectangle the
returned thickness lies in `[1, 20]`. -/
theorem slider_preserves_rgb_and_bounds
    (finger : Option Pt) (x1 y1 x2 y2 r g b t : Int)
    (hx : x1 < x2) (_hy : y1 < y2) :
    (check_slider_interaction finger (x1, y1, x2, y2) (r, g, b, t)).1 = r ∧
    (check_slider_interaction finger (x1, y1, x2, y2) (r, g, b, t)).2.1 = g ∧
    (check_slider_interaction finger (x1, y1, x2, y2) (r, g, b, t)).2.2.1 = b ∧
    (finger = none →
      check_slider_interaction finger (x1, y1, x2, y2) (r, g, b, t) = (r, g, b, t)) ∧
    (∀ f : Pt, finger = some f →
      ¬(x1 ≤ f.1 ∧ f.1 ≤ x2 ∧ y1 ≤ f.2 ∧ f.2 ≤ y2) →
      check_slider_interaction finger (x1, y1, x2, y2) (r, g, b, t) = (r, g, b, t)) ∧
    (∀ f : Pt, finger = some f →
      (x1 ≤ f.1 ∧ f.1 ≤ x2 ∧ y1 ≤ f.2 ∧ f.2 ≤ y2) →
      1 ≤ (check_slider_interaction finger (x1, y1, x2, y2) (r, g, b, t)).2.2.2 ∧
      (check_slider_interaction finger (x1, y1, x2, y2) (r, g, b, t)).2.2.2 ≤ 20) := by
  match finger with
  | none => simp [check_slider_interaction]
  | some f =>
    by_cases hin : x1 ≤ f.1 ∧ f.1 ≤ x2 ∧ y1 ≤ f.2 ∧ f.2 ≤ y2
    · have hden : (0 : ℚ) < ((x2 - x1 : Int) : ℚ) := by
        have h : (0 : Int) < x2 - x1 := by omega
        exact_mod_cast h
      have hrx0 : (0 : ℚ) ≤ ((f.1 - x1 : Int) : ℚ) / ((x2 - x1 : Int) : ℚ) := by
        apply div_nonneg _ hden.le
        have h : (0 : Int) ≤ f.1 - x1 := by omega
        exact_mod_cast h
      have hrx1 : ((f.1 - x1 : Int) : ℚ) / ((x2 - x1 : Int) : ℚ) ≤ 1 := by
        rw [div_le_one hden]
        have h : (f.1 - x1 : Int) ≤ (x2 - x1 : Int) := by omega
        exact_mod_cast h
      have hlo : (1 : Int) ≤ ⌊(1 : ℚ) + 19 * (((f.1 - x1 : Int) : ℚ) / ((x2 - x1 : Int) : ℚ))⌋ := by
        rw [Int.le_floor]
        have h := hrx0
        push_cast at h ⊢
        linarith
      have hhi : ⌊(1 : ℚ) + 19 * (((f.1 - x1 : Int) : ℚ) / ((x2 - x1 : Int) : ℚ))⌋ ≤ 20 := by
        have h20 : ((1 : ℚ) + 19 * (((f.1 - x1 : Int) : ℚ) / ((x2 - x1 : Int) : ℚ))) ≤ (20 : ℚ) := by
          linarith [hrx1]
        calc ⌊(1 : ℚ) + 19 * (((f.1 - x1 : Int) : ℚ) / ((x2 - x1 : Int) : ℚ))⌋
            ≤ ⌊(20 : ℚ)⌋ := Int.floor_le_floor h20
          _ = 20 := by norm_num
      have heq : check_slider_interaction (some f) (x1, y1, x2, y2) (r, g, b, t) =
          (r, g, b, ⌊(1 : ℚ) + 19 * (((f.1 - x1 : Int) : ℚ) / ((x2 - x1 : Int) : ℚ))⌋) := by
        simp only [check_slider_interaction]
        rw [if_pos hin]
      rw [heq]
      refine ⟨rfl, rfl, rfl, fun h => Option.noConfusion h, ?_, ?_⟩
      · intro f' hf' hnin
        cases Option.some.inj hf'
        exact absurd hin hnin
      · intro f' hf' _
        exact ⟨hlo, hhi⟩
    · have heq : check_slider_interaction (some f) (x1, y1, x2, y2) (r, g, b, t) =
          (r, g, b, t) := by
        simp only [check_slider_interaction]
        rw [if_neg hin]
      rw [heq]
      refine ⟨rfl, rfl, rfl, fun _ => rfl, fun _ _ _ => rfl, ?_⟩
      intro f' hf' hin'
      cases Option.some.inj hf'
      exact absurd hin' hin

/-- Witness for C9: finger (10, 5) on the slider rectangle (0, 0, 160, 20)
with values (1, 2, 3, 4): red, green, blue unchanged and the returned
thickness lies in [1, 20]. -/
theorem slider_preserves_rgb_and_bounds_witness :
    (check_slider_interaction (some ((10 : Int), (5 : Int))) (0, 0, 160, 20)
        (1, 2, 3, 4)).1 = 1 ∧
    (check_slider_interaction (some ((10 : Int), (5 : Int))) (0, 0, 160, 20)
        (1, 2, 3, 4)).2.1 = 2 ∧
    (check_slider_interaction (some ((10 : Int), (5 : Int))) (0, 0, 160, 20)
        (1, 2, 3, 4)).2.2.1 = 3 ∧
    (some ((10 : Int), (5 : Int)) = none →
      check_slider_interaction (some ((10 : Int), (5 : Int))) (0, 0, 160, 20)
        (1, 2, 3, 4) = (1, 2, 3, 4)) ∧
    (∀ f : Pt, some ((10 : Int), (5 : Int)) = some f →
      ¬((0 : Int) ≤ f.1 ∧ f.1 ≤ 160 ∧ (0 : Int) ≤ f.2 ∧ f.2 ≤ 20) →
      check_slider_interaction (some ((10 : Int), (5 : Int))) (0, 0, 160, 20)
        (1, 2, 3, 4) = (1, 2, 3, 4)) ∧
    (∀ f : Pt, some ((10 : Int), (5 : Int)) = some f →
      ((0 : Int) ≤ f.1 ∧ f.1 ≤ 160 ∧ (0 : Int) ≤ f.2 ∧ f.2 ≤ 20) →
      1 ≤ (check_slider_interaction (some ((10 : Int), (5 : Int))) (0, 0, 160, 20)
        (1, 2, 3, 4)).2.2.2 ∧
      (check_slider_interaction (some ((10 : Int), (5 : Int))) (0, 0, 160, 20)
        (1, 2, 3, 4)).2.2.2 ≤ 20) :=
  slider_preserves_rgb_and_bounds (some (10, 5)) 0 0 160 20 1 2 3 4
    (by decide) (by decide)

/-! ## Canvas creation and the background toggle

canvas.py lines 24-42 (`create_canvas`), main.py lines 561-566 (the `'t'`
keyboard handler) and lines 371, 383, 390 (the per-frame eraser and
compositing background colors, both recomputed from `canvas_is_white`
every frame). Images are modelled pointwise. -/

/-- An image as a pointwise pixel function. -/
abbrev Img := Nat → Nat → Color

/-- `create_canvas` (canvas.py lines 24-42): `np.full((height, width, 3),
color)` — every pixel is the given color. -/
def create_canvas (_height _width : Nat) (color : Color) : Img := fun _ _ => color

/-- The cross-frame state the toggle touches: `canvas_is_white` and
`drawing_canvas` (main.py lines 114, 117). -/
structure AppState where
  canvas_is_white : Bool
  drawing_canvas : Img

/-- The `'t'` keyboard handler (main.py lines 561-566): flip
`canvas_is_white` and replace `drawing_canvas` with a freshly created
canvas in the new background color. -/
def toggle_background (height width : Nat) (s : AppState) : AppState :=
  let new_white := !s.canvas_is_white
  { canvas_is_white := new_white
    drawing_canvas := create_canvas height width
      (if new_white then (255, 255, 255) else (0, 0, 0)) }

/-- The per-frame eraser color (main.py lines 371 and 390):
`(255,255,255) if canvas_is_white else (0,0,0)`. -/
def eraser_color (s : AppState) : Color :=
  if s.canvas_is_white then (255, 255, 255) else (0, 0, 0)

/-- The per-frame compositing background color (main.py line 383). -/
def background_color (s : AppState) : Color :=
  if s.canvas_is_white then (255, 255, 255) else (0, 0, 0)

/-- C8: after a background toggle every pixel of the fresh drawing canvas
equals the new background color (prior strokes gone) and the per-frame
eraser color equals the new background color; in particular toggling from
white leaves every canvas pixel black and the eraser color black. -/
theorem toggle_background_resets_canvas (height width : Nat) (s : AppState)
    (y x : Nat) :
    (toggle_background height width s).drawing_canvas y x =
      background_color (toggle_background height width s) ∧
    eraser_color (toggle_background height width s) =
      background_color (toggle_background height width s) ∧
    (toggle_background height width ⟨true, s.drawing_canvas⟩).drawing_canvas y x
      = (0, 0, 0) ∧
    eraser_color (toggle_background height width ⟨true, s.drawing_canvas⟩)
      = (0, 0, 0) := by
  refine ⟨?_, ?_, rfl, rfl⟩ <;>
    cases hsw : s.canvas_is_white <;>
      simp [toggle_background, create_canvas, eraser_color, background_color, hsw]

/-! ## The compositor (canvas.py lines 78-129)

`overlay_canvas` resizes the drawing canvas to the camera frame, derives a
binary "drawn" mask by thresholding the grayscale canvas against the
background color, and combines camera and canvas through the mask pair.
The OpenCV primitives are modelled pointwise from their documented
semantics; `cv2.resize` (whose resampling arithmetic none of the claims
depend on) is a parameter of the embedding. -/

/-- `cv2.cvtColor(..., cv2.COLOR_BGR2GRAY)` per BGR pixel: OpenCV's
fixed-point form of `Y = 0.299 R + 0.587 G + 0.114 B`, rounded to
nearest. -/
def gray_bgr (c : Color) : Nat :=
  (1868 * c.1 + 9617 * c.2.1 + 4899 * c.2.2 + 8192) / 16384

/-- `cv2.threshold(..., thresh, maxval, cv2.THRESH_BINARY)` per pixel. -/
def thresh_binary (thresh maxval v : Nat) : Nat := if v > thresh then maxval else 0

/-- `cv2.threshold(..., thresh, maxval, cv2.THRESH_BINARY_INV)` per pixel. -/
def thresh_binary_inv (thresh maxval v : Nat) : Nat := if v > thresh then 0 else maxval

/-- `cv2.bitwise_not` on an 8-bit mask pixel. -/
def bitwise_not8 (v : Nat) : Nat := 255 - v

/-- `cv2.bitwise_and(src, src, mask=m)` per pixel: the source pixel where
the mask is nonzero, zero elsewhere. -/
def masked_px (m : Nat) (c : Color) : Color := if m ≠ 0 then c else (0, 0, 0)

/-- `cv2.add` per pixel: saturating 8-bit addition in each channel. -/
def sat_add (a b : Color) : Color :=
  (min 255 (a.1 + b.1), min 255 (a.2.1 + b.2.1), min 255 (a.2.2 + b.2.2))

/-- A resize operation: source image and its height/width, then the
destination height/width. -/
abbrev Resize := Img → Nat → Nat → Nat → Nat → Img

/-- `overlay_canvas` (canvas.py lines 78-129), pointwise, parameterized by
the `cv2.resize` resampler. -/
def overlay_canvas (resize : Resize) (camera_frame : Img) (cam_h cam_w : Nat)
    (canvas : Img) (can_h can_w : Nat) (bg : Color) : Img :=
  let canvas_resized := resize canvas can_h can_w cam_h cam_w
  let gray_canvas : Nat → Nat → Nat := fun y x => gray_bgr (canvas_resized y x)
  let mask : Nat → Nat → Nat :=
    if bg = (255, 255, 255) then
      fun y x => thresh_binary_inv 250 255 (gray_canvas y x)
    else
      fun y x => thresh_binary 5 255 (gray_canvas y x)
  let background_mask : Nat → Nat → Nat := fun y x => bitwise_not8 (mask y x)
  let background : Img := fun y x => masked_px (background_mask y x) (camera_frame y x)
  let foreground : Img := fun y x => masked_px (mask y x) (canvas_resized y x)
  fun y x => sat_add (background y x) (foreground y x)

/-- Adding the zero pixel saturates to the original byte-valued pixel. -/
lemma sat_add_zero (c : Color) (h : c.1 ≤ 255 ∧ c.2.1 ≤ 255 ∧ c.2.2 ≤ 255) :
    sat_add c (0, 0, 0) = c := by
  obtain ⟨a, b, r⟩ := c
  obtain ⟨h1, h2, h3⟩ := h
  show (min 255 (a + 0), min 255 (b + 0), min 255 (r + 0)) = (a, b, r)
  rw [Nat.add_zero, Nat.add_zero, Nat.add_zero,
    Nat.min_eq_right h1, Nat.min_eq_right h2, Nat.min_eq_right h3]

/-- C7: on a drawing canvas every pixel of which equals the background
color (all white for the white background, all black otherwise), the
compositor's mask is empty and the output equals the camera frame exactly,
for any constant-preserving resampler and any byte-valued camera frame. -/
theorem overlay_blank_canvas_id (resize : Resize)
    (camera_frame : Img) (cam_h cam_w can_h can_w : Nat)
    (canvas : Img) (bg : Color)
    (hresize : ∀ (c : Color) (sh sw dh dw : Nat),
      resize (fun _ _ => c) sh sw dh dw = fun _ _ => c)
    (hcanvas : canvas = fun _ _ =>
      if bg = (255, 255, 255) then ((255 : Nat), (255 : Nat), (255 : Nat))
      else ((0 : Nat), (0 : Nat), (0 : Nat)))
    (hvalid : ∀ y x, (camera_frame y x).1 ≤ 255 ∧
      (camera_frame y x).2.1 ≤ 255 ∧ (camera_frame y x).2.2 ≤ 255) :
    ∀ y x, overlay_canvas resize camera_frame cam_h cam_w canvas can_h can_w bg y x
      = camera_frame y x := by
  intro y x
  subst hcanvas
  simp only [overlay_canvas]
  rw [hresize]
  by_cases hbg : bg = (255, 255, 255)
  · simp only [if_pos hbg, thresh_binary_inv, gray_bgr, bitwise_not8, masked_px]
    norm_num
    exact sat_add_zero _ (hvalid y x)
  · simp only [if_neg hbg, thresh_binary, gray_bgr, bitwise_not8, masked_px]
    norm_num
    exact sat_add_zero _ (hvalid y x)

/-- A nearest-neighbour resampler, used to instantiate the compositor
witness concretely. -/
def resize_nearest : Resize := fun img sh sw dh dw => fun y x =>
  img (y * sh / max dh 1) (x * sw / max dw 1)

/-- Witness for C7: a constant (7, 8, 9) camera frame composited with an
all-white canvas over the white background is returned unchanged at pixel
(0, 1). -/
theorem overlay_blank_canvas_id_witness :
    overlay_canvas resize_nearest (fun _ _ => ((7 : Nat), (8 : Nat), (9 : Nat)))
      4 4 (fun _ _ => ((255 : Nat), (255 : Nat), (255 : Nat))) 3 3
      (255, 255, 255) 0 1 = (7, 8, 9) :=
  overlay_blank_canvas_id resize_nearest (fun _ _ => ((7 : Nat), (8 : Nat), (9 : Nat)))
    4 4 3 3 (fun _ _ => ((255 : Nat), (255 : Nat), (255 : Nat))) (255, 255, 255)
    (fun _ _ _ _ _ => rfl) (by norm_num)
    (fun _ _ => ⟨by norm_num, by norm_num, by norm_num⟩) 0 1

end AirCanvas
